import Mathlib

/-!
Verification of the solid-form repository core: the field/form state
machine, the built-in validations and the event emitter.

The JavaScript sources are embedded shallowly:

* JavaScript runtime values that flow through fields and validations are
  modelled by the inductive type JSValue.  Numbers are modelled as
  integers (the claims under study only exercise integral values); object
  and array equality is modelled structurally, which coincides with the
  strict equality used by isEqual in packages/model/src/util.ts on all
  primitive values.
* Fallible code is embedded with Except; code that cannot throw is a
  plain function.
* Stateful classes become structures, and each method becomes a function
  from the structure to the structure, paired with the list of events it
  emits and with its return value.

Two generations of the library live in the repository and both are
embedded where the claims need them:

* the class based core in packages/form/src (Field, Form, validator.ts),
  whose Field appears in two variants in the sources: the current one
  with setValue and a reset event, and an earlier one, part_012 of the
  unnamed sources, with a set method taking a trigger flag; the Form
  methods reset and clear call exactly these field methods;
* the solid-js createForm/createField core in src/src (field.ts,
  validation.ts), a store based implementation.
-/

/-- Model of a JavaScript runtime value as it flows through the form
core.  Numbers are integral, blobs are represented by their byte size and
plain objects by their key/value list (keys distinct in actual JS). -/
inductive JSValue where
  | undef
  | jsNull
  | bool (b : Bool)
  | num (n : Int)
  | str (s : String)
  | arr (xs : List JSValue)
  | blob (size : Nat)
  | obj (fields : List (String × JSValue))

namespace JSValue

mutual

/-- Structural equality of JavaScript values.  It coincides with the
strict equality used by isEqual in packages/model/src/util.ts on all
primitive values; object identity is not modelled. -/
def beq : JSValue → JSValue → Bool
  | .undef, .undef => true
  | .jsNull, .jsNull => true
  | .bool a, .bool b => a == b
  | .num a, .num b => a == b
  | .str a, .str b => a == b
  | .arr xs, .arr ys => beqList xs ys
  | .blob a, .blob b => a == b
  | .obj fs, .obj gs => beqObj fs gs
  | _, _ => false

/-- Elementwise equality of value lists. -/
def beqList : List JSValue → List JSValue → Bool
  | [], [] => true
  | x :: xs, y :: ys => beq x y && beqList xs ys
  | _, _ => false

/-- Elementwise equality of key/value lists. -/
def beqObj : List (String × JSValue) → List (String × JSValue) → Bool
  | [], [] => true
  | (k, v) :: fs, (l, w) :: gs => k == l && beq v w && beqObj fs gs
  | _, _ => false

end

instance : BEq JSValue := ⟨beq⟩

mutual

theorem beq_refl : ∀ v : JSValue, beq v v = true
  | .undef => rfl
  | .jsNull => rfl
  | .bool b => by simp [beq]
  | .num n => by simp [beq]
  | .str s => by simp [beq]
  | .arr xs => by simpa [beq] using beqList_refl xs
  | .blob n => by simp [beq]
  | .obj fs => by simpa [beq] using beqObj_refl fs

theorem beqList_refl : ∀ xs : List JSValue, beqList xs xs = true
  | [] => rfl
  | x :: xs => by simp [beqList, beq_refl x, beqList_refl xs]

theorem beqObj_refl : ∀ fs : List (String × JSValue), beqObj fs fs = true
  | [] => rfl
  | (k, v) :: fs => by simp [beqObj, beq_refl v, beqObj_refl fs]

end

/-- JavaScript ToBoolean: the truthiness test used by the double negation
in the required validation of src/src/validation.ts.  Objects, arrays and
blobs are always truthy, even when empty. -/
def truthy : JSValue → Bool
  | .undef => false
  | .jsNull => false
  | .bool b => b
  | .num n => !(n == 0)
  | .str s => !(s == "")
  | .arr _ => true
  | .blob _ => true
  | .obj _ => true

mutual

/-- JavaScript String(v) conversion, used by toError for non Error throw
values and by the loose comparison of an array against a string. -/
def toStringJS : JSValue → String
  | .undef => "undefined"
  | .jsNull => "null"
  | .bool b => cond b "true" "false"
  | .num n => toString n
  | .str s => s
  | .arr xs => arrJoin xs
  | .blob _ => "[object Blob]"
  | .obj _ => "[object Object]"

/-- Array.prototype.toString: elements joined by commas, with undefined
and null elements rendered as the empty string. -/
def arrJoin : List JSValue → String
  | [] => ""
  | x :: xs =>
      (match x with
        | .undef => ""
        | .jsNull => ""
        | v => toStringJS v)
      ++ (if xs.isEmpty then "" else ",") ++ arrJoin xs

end

/-- JavaScript loose equality against undefined: only undefined and null
compare loosely equal to undefined. -/
def looseEqUndef : JSValue → Bool
  | .undef => true
  | .jsNull => true
  | _ => false

/-- JavaScript loose equality against the empty string.  Numbers and
booleans are converted to numbers (the empty string converts to 0), and
objects are converted via ToPrimitive, so an empty array also compares
loosely equal to the empty string. -/
def looseEqEmptyStr : JSValue → Bool
  | .str s => s == ""
  | .num n => n == 0
  | .bool b => !b
  | .arr xs => arrJoin xs == ""
  | _ => false

end JSValue

/-! ## src/src/validation.ts: the solid-form validation built-ins -/

/-- A validation message in src/src/validation.ts is either a static
string or a function of the field name. -/
inductive VMessage where
  | str (s : String)
  | fn (f : String → String)

/-- The message resolution performed by createField in src/src/field.ts:
a function message is applied to the field name, a static message is used
as is. -/
def VMessage.resolve : VMessage → String → String
  | .str s, _ => s
  | .fn f, name => f name

/-- A validation rule from src/src/validation.ts: a name, a message and a
boolean predicate over the value. -/
structure SolidValidation where
  name : String
  message : VMessage
  validate : JSValue → Bool

/-- The required built-in of src/src/validation.ts: its predicate is the
double negation of the value, that is plain JavaScript truthiness. -/
def required : SolidValidation where
  name := "required"
  message := .fn fun name =>
    if name == "" then "field is required" else name ++ " is required"
  validate v := v.truthy

/-- getNumber from src/src/validation.ts: the length or magnitude measure
used by the solid-form min and max built-ins.  Null and undefined measure
0; every value that is not a string, number, array or blob falls through
to Object.keys, which yields the key count for plain objects and the
empty list for primitives such as booleans.  It never throws. -/
def getNumber : JSValue → Int
  | .undef => 0
  | .jsNull => 0
  | .str s => s.length
  | .num n => n
  | .arr xs => xs.length
  | .blob size => size
  | .bool _ => 0
  | .obj fields => fields.length

/-- The min built-in of src/src/validation.ts. -/
def minValidation (bound : Int) : SolidValidation where
  name := "minimum length"
  message := .fn fun name =>
    if name == "" then "field is required"
    else name ++ " should be at least " ++ toString bound
  validate v := getNumber v ≥ bound

/-- The max built-in of src/src/validation.ts. -/
def maxValidation (bound : Int) : SolidValidation where
  name := "maximum length"
  message := .fn fun name =>
    if name == "" then "field is required" else name ++ " is to large"
  validate v := getNumber v ≤ bound

/-! ## packages/form/src/validator.ts: the class based validator -/

/-- Outcome of a validator from packages/form/src/validator.ts: such a
validator either returns, throws a ValidationError carrying a message, or
throws a TypeError (a usage error, distinguished from a validation
failure). -/
inductive VErr where
  | validation (msg : String)
  | typeError (msg : String)
deriving Repr, DecidableEq

/-- getLenth of LengthBase in packages/form/src/validator.ts: strings
measure their character length, numbers their own value, arrays their
element count, and every other value, blobs and plain objects included,
raises a TypeError. -/
def getLenth : JSValue → Except VErr Int
  | .str s => .ok s.length
  | .num n => .ok n
  | .arr xs => .ok xs.length
  | _ => .error (.typeError "Invalid value")

/-- MinValidation.validate from packages/form/src/validator.ts. -/
def minValidate (bound : Int) (message : String) (v : JSValue) :
    Except VErr Unit := do
  let len ← getLenth v
  if len < bound then throw (.validation message) else pure ()

/-- MaxValidation.validate from packages/form/src/validator.ts. -/
def maxValidate (bound : Int) (message : String) (v : JSValue) :
    Except VErr Unit := do
  let len ← getLenth v
  if len > bound then throw (.validation message) else pure ()

/-! ## packages/form/src/field.ts: the Field class

The class appears in two variants in the repository snapshot.  Namespace
FieldV1 embeds the current packages/form/src/field.ts (setValue, a reset
event, and an emptiness test that compares the value loosely against both
undefined and the empty string).  Namespace FieldV2 embeds the earlier
variant, part_012 of the unnamed sources, whose set method takes a
trigger flag and whose emptiness test compares only against undefined;
the Form method clear calls exactly this set method. -/

/-- Common state of a Field instance: current value, default value,
accumulated validation errors (their messages), the required flag and the
configured validations.  A JavaScript value of undefined is represented
by JSValue.undef.  The class is called Field in the source; that name is
taken by the Mathlib algebraic hierarchy, hence FieldState here. -/
structure FieldState where
  value : JSValue
  defaultValue : JSValue
  errors : List String
  required : Bool
  validations : List (JSValue → Except VErr Unit)

/-- An event emitted by a Field. -/
inductive FieldEvent where
  | change (prev value : JSValue)
  | validateValid
  | validateInvalid (errors : List String)
  | reset

/-- Result of a value mutating field method: the updated field, the
boolean the method returns, and the events it emitted. -/
structure FieldStep where
  field : FieldState
  changed : Bool
  events : List FieldEvent

/-- Result of Field.validate: the updated field, the boolean the promise
resolves to, and the events emitted. -/
structure ValidateStep where
  field : FieldState
  valid : Bool
  events : List FieldEvent

/-- The loop over the configured validations shared by both Field
variants: each validation runs in declared order, a ValidationError is
collected, any other exception is rethrown and aborts the run. -/
def runValidations (value : JSValue) :
    List (JSValue → Except VErr Unit) → Except String (List String)
  | [] => .ok []
  | v :: vs =>
    match v value with
    | .ok _ => runValidations value vs
    | .error (.validation msg) => do pure (msg :: (← runValidations value vs))
    | .error (.typeError msg) => .error msg

namespace FieldV1

/-- setValue of the current Field class: the private setter assigns the
value unconditionally and reports whether it differed from the previous
one under the configured equality; on an actual change the errors are
cleared before the change event fires. -/
def setValue (f : FieldState) (v : JSValue) : FieldStep :=
  let prev := f.value
  let equal := JSValue.beq f.value v
  let f1 : FieldState := { f with value := v }
  if equal then
    { field := f1, changed := false, events := [] }
  else
    { field := { f1 with errors := [] }, changed := true,
      events := [.change prev v] }

/-- The value property setter simply delegates to setValue. -/
def valueSetter (f : FieldState) (v : JSValue) : FieldStep :=
  setValue f v

/-- reset of the current Field class: set the value back to the default,
then clear the errors unconditionally and emit a reset event. -/
def reset (f : FieldState) : FieldStep :=
  let s := setValue f f.defaultValue
  { field := { s.field with errors := [] }, changed := s.changed,
    events := s.events ++ [.reset] }

/-- validate of the current Field class.  The emptiness test uses loose
equality: value == undefined or value == the empty string.  An empty
value short circuits every configured validation and contributes a
Required error exactly when the field is required; otherwise all
validations run.  The promise resolves to the negation of the error
count. -/
def validate (f : FieldState) (trigger : Bool) :
    Except String ValidateStep := do
  let errors ←
    if JSValue.looseEqUndef f.value || JSValue.looseEqEmptyStr f.value then
      pure (if f.required then ["Required"] else [])
    else
      runValidations f.value f.validations
  let evs := if trigger then
      [if errors.isEmpty then FieldEvent.validateValid
       else FieldEvent.validateInvalid errors]
    else []
  pure { field := { f with errors := errors }, valid := errors.isEmpty,
         events := evs }

end FieldV1

namespace FieldV2

/-- set of the earlier Field variant (part_012): the value is assigned
unconditionally, but the errors are cleared and the change event fired
only when the value differed and the trigger flag is set; the returned
boolean is the conjunction of both conditions. -/
def set (f : FieldState) (v : JSValue) (trigger : Bool) : FieldStep :=
  let prev := f.value
  let f1 : FieldState := { f with value := v }
  if !JSValue.beq prev v && trigger then
    { field := { f1 with errors := [] }, changed := true,
      events := [.change prev v] }
  else
    { field := f1, changed := false, events := [] }

/-- reset of the earlier Field variant: set back to the default with the
trigger flag left at its default of true. -/
def reset (f : FieldState) : FieldStep :=
  set f f.defaultValue true

/-- validate of the earlier Field variant: identical to the current one
except that the emptiness test compares the value loosely against
undefined only. -/
def validate (f : FieldState) (trigger : Bool) :
    Except String ValidateStep := do
  let errors ←
    if JSValue.looseEqUndef f.value then
      pure (if f.required then ["Required"] else [])
    else
      runValidations f.value f.validations
  let evs := if trigger then
      [if errors.isEmpty then FieldEvent.validateValid
       else FieldEvent.validateInvalid errors]
    else []
  pure { field := { f with errors := errors }, valid := errors.isEmpty,
         events := evs }

end FieldV2

/-- The value mutating entry points of the Field class named by the
stale-error invariant: the value property setter, setValue, the earlier
set method with its trigger flag, and reset. -/
inductive Mutation where
  | valueSetter (v : JSValue)
  | setValue (v : JSValue)
  | set (v : JSValue) (trigger : Bool)
  | reset

/-- The trigger flag of a mutation; every entry point except the earlier
set method fixes it to true. -/
def Mutation.trigger : Mutation → Bool
  | .set _ t => t
  | _ => true

/-- Dispatch a mutation to the method embedding it. -/
def applyMutation (f : FieldState) (m : Mutation) : FieldStep :=
  match m with
  | .valueSetter v => FieldV1.valueSetter f v
  | .setValue v => FieldV1.setValue f v
  | .set v t => FieldV2.set f v t
  | .reset => FieldV1.reset f

/-! ## packages/form/src/field.ts, second part: the Form class -/

/-- The status of a Form from packages/form.  Note the absence of a
failed status: FormStatus in the source is validating, submitting, idle,
resetting or clearing. -/
inductive FormStatus where
  | validating
  | submitting
  | idle
  | resetting
  | clearing
deriving Repr, DecidableEq

/-- An event emitted at form level.  Field change and validate events are
re-broadcast with the field name by the listeners the Form registers when
it creates a field; change is the form wide change event with an empty
payload; validateField with an empty error list is the valid outcome. -/
inductive FormEvent where
  | statusChange (prev next : FormStatus)
  | changeField (name : String) (prev value : JSValue)
  | change
  | validateField (name : String) (errors : List String)
  | validateForm (valid : Bool) (errors : List (String × List String))
  | submitOk
  | submitErr (msg : String)

/-- Update of a JavaScript object used as a map: assigning a key
overwrites an existing entry and otherwise appends it. -/
def setEntry {α : Type} : List (String × α) → String → α → List (String × α)
  | [], k, v => [(k, v)]
  | (k1, v1) :: rest, k, v =>
    if k1 == k then (k1, v) :: setEntry rest k v
    else (k1, v1) :: setEntry rest k v

/-- The delete operator on a JavaScript object used as a map. -/
def removeEntry {α : Type} (l : List (String × α)) (k : String) :
    List (String × α) :=
  l.filter fun p => p.1 != k

/-- Key lookup in a JavaScript object used as a map; a missing key reads
as undefined at the call sites. -/
def lookupEntry {α : Type} (l : List (String × α)) (k : String) : Option α :=
  (l.find? fun p => p.1 == k).map Prod.snd

/-- State of a Form from packages/form: its fields in insertion order,
the derived validationErrors cache, the last submit error and the
status. -/
structure Form where
  fields : List (String × FieldState)
  validationErrors : List (String × List String)
  submitError : Option String
  status : FormStatus

namespace Form

/-- The private setStatus helper: assigns the status and emits a
statusChange event exactly when it changed. -/
def setStatus (f : Form) (st : FormStatus) : Form × List FormEvent :=
  ({ f with status := st },
   if f.status == st then [] else [.statusChange f.status st])

/-- The change listener the Form registers on each field it creates: the
change event is re-broadcast under the field name, and the form wide
change event fires only while the status is idle. -/
def changeListener (status : FormStatus) (name : String) :
    FieldEvent → List FormEvent
  | .change prev v =>
    .changeField name prev v :: (if status == .idle then [.change] else [])
  | _ => []

/-- toJSON: the snapshot of the values of all created fields. -/
def toJSON (f : Form) : List (String × JSValue) :=
  f.fields.map fun p => (p.1, p.2.value)

/-- isValid: every created field has no errors. -/
def isValid (f : Form) : Bool :=
  f.fields.all fun p => p.2.errors.isEmpty

/-- isDirty: some created field differs from its default value under the
configured equality. -/
def isDirty (f : Form) : Bool :=
  f.fields.any fun p => !JSValue.beq p.2.defaultValue p.2.value

/-- One pass of Form.validate over the field list: every field is
validated in order with no short circuit; each validate event updates the
validationErrors cache through the registered listener (an invalid field
overwrites its entry, a valid one deletes it) and is re-broadcast under
the field name.  A validation throwing anything but a ValidationError
aborts the pass. -/
def validateFields :
    List (String × FieldState) → List (String × List String) →
    Except String
      (List (String × FieldState) × List (String × List String) ×
       Bool × List FormEvent)
  | [], errs => .ok ([], errs, false, [])
  | (name, fld) :: rest, errs => do
    let step ← FieldV1.validate fld true
    let errs1 :=
      if step.valid then removeEntry errs name
      else setEntry errs name step.field.errors
    let (restFields, errs2, failed2, evs2) ← validateFields rest errs1
    .ok ((name, step.field) :: restFields, errs2,
         (!step.valid || failed2),
         FormEvent.validateField name step.field.errors :: evs2)

/-- Form.validate: set the status to validating, reset the aggregate
validationErrors, validate every field, emit the form level validate
event and restore the status to idle.  The source function has no return
statement, so the promise resolves to undefined; accordingly the
embedding produces only the new state and the events. -/
def validate (f : Form) : Except String (Form × List FormEvent) := do
  let (f1, evsA) := setStatus f .validating
  let f2 : Form := { f1 with validationErrors := [] }
  let (fields, errs, failed, evsB) ← validateFields f2.fields f2.validationErrors
  let f3 : Form := { f2 with fields := fields, validationErrors := errs }
  let evV := FormEvent.validateForm (!failed)
    (if failed then f3.validationErrors else [])
  let (f4, evsC) := setStatus f3 .idle
  .ok (f4, evsA ++ evsB ++ [evV] ++ evsC)

/-- A JavaScript throw value reaching a catch block: either an Error
instance, represented by its message, or any other value. -/
inductive Thrown where
  | errObj (msg : String)
  | rawValue (v : JSValue)

/-- The normalisation applied to caught values: an Error is kept, any
other value is wrapped via new Error(String(e)).  This is both the inline
expression in Form.submit of packages/form and toError in the shared
solid-form utilities. -/
def toErrorMsg : Thrown → String
  | .errObj msg => msg
  | .rawValue v => JSValue.toStringJS v

/-- Form.submit of packages/form: enter the submitting status, clear the
previous submit error, run the caller supplied callback on the value
snapshot, emit the submit event, and always return to the idle status in
the finally block, whether the callback succeeded or threw.  The thrown
value is captured and normalised into submitError; nothing is rethrown,
which the embedding reflects by being a total function of the callback
outcome. -/
def submit (f : Form) (outcome : Except Thrown Unit) :
    Form × List FormEvent :=
  let (f1, evsA) := setStatus f .submitting
  let f2 : Form := { f1 with submitError := none }
  match outcome with
  | .ok _ =>
    let (f3, evsC) := setStatus f2 .idle
    (f3, evsA ++ [.submitOk] ++ evsC)
  | .error e =>
    let msg := toErrorMsg e
    let f3 : Form := { f2 with submitError := some msg }
    let (f4, evsC) := setStatus f3 .idle
    (f4, evsA ++ [.submitErr msg] ++ evsC)

/-- The loop of Form.reset over the fields: optionally install a new
default value (a name missing from the supplied defaults reads as
undefined), then reset the field; field change events are re-broadcast
under the field name but the status is resetting, so no per field form
wide change fires. -/
def resetFields (defaults : Option (List (String × JSValue))) :
    List (String × FieldState) →
    List (String × FieldState) × Bool × List FormEvent
  | [] => ([], false, [])
  | (name, fld) :: rest =>
    let fld1 := match defaults with
      | some ds => { fld with defaultValue := (lookupEntry ds name).getD .undef }
      | none => fld
    let s := FieldV1.reset fld1
    let (restFields, changed2, evs2) := resetFields defaults rest
    ((name, s.field) :: restFields, (s.changed || changed2),
     (s.events.map (changeListener .resetting name)).flatten ++ evs2)

/-- Form.reset: enter the resetting status, clear submitError and the
aggregate validationErrors, reset every field (optionally with new
defaults), emit one form wide change event for the whole operation (the
guard on whether anything changed is commented out in the source, so it
fires unconditionally), and return to idle. -/
def reset (f : Form) (defaults : Option (List (String × JSValue))) :
    Form × List FormEvent :=
  let (f1, evsA) := setStatus f .resetting
  let f2 : Form := { f1 with submitError := none, validationErrors := [] }
  let (fields, _, evsB) := resetFields defaults f2.fields
  let f3 : Form := { f2 with fields := fields }
  let (f4, evsC) := setStatus f3 .idle
  (f4, evsA ++ evsB ++ [.change] ++ evsC)

/-- The loop of Form.clear over the fields: each field value is set to
undefined through the set method of the earlier field variant with the
trigger flag left at true; change events are re-broadcast under the field
name but the status is clearing, so no per field form wide change
fires. -/
def clearFields :
    List (String × FieldState) →
    List (String × FieldState) × Bool × List FormEvent
  | [] => ([], false, [])
  | (name, fld) :: rest =>
    let s := FieldV2.set fld .undef true
    let (restFields, changed2, evs2) := clearFields rest
    ((name, s.field) :: restFields, (s.changed || changed2),
     (s.events.map (changeListener .clearing name)).flatten ++ evs2)

/-- Form.clear: enter the clearing status, clear submitError and the
aggregate validationErrors, set every field value to undefined without
running any validation, emit one form wide change event only when some
field value actually changed, and return to idle. -/
def clear (f : Form) : Form × List FormEvent :=
  let (f1, evsA) := setStatus f .clearing
  let f2 : Form := { f1 with submitError := none, validationErrors := [] }
  let (fields, changed, evsB) := clearFields f2.fields
  let f3 : Form := { f2 with fields := fields }
  let (f4, evsC) := setStatus f3 .idle
  (f4, evsA ++ evsB ++ (if changed then [FormEvent.change] else []) ++ evsC)

/-- The Form constructor restricted to the defaultValues option: each
default creates a field whose value and defaultValue are that default.
Keys of a JavaScript object literal are distinct. -/
def ofDefaults (defaults : List (String × JSValue)) : Form :=
  { fields := defaults.map fun p =>
      (p.1, { value := p.2, defaultValue := p.2, errors := [],
              required := false, validations := [] }),
    validationErrors := [], submitError := none, status := .idle }

/-- A value mutation through the public field accessor of an already
created field: form.field(name).setValue(v).  The change listener only
re-broadcasts events and touches no form state. -/
def setFieldValue (f : Form) (name : String) (v : JSValue) : Form :=
  { f with fields := f.fields.map fun p =>
      if p.1 == name then (p.1, (FieldV1.setValue p.2 v).field) else p }

/-- A sequence of field value mutations. -/
def applyMutations (f : Form) (muts : List (String × JSValue)) : Form :=
  muts.foldl (fun acc m => setFieldValue acc m.1 m.2) f

end Form

/-! ## src/src/field.ts: the solid-js createField/createForm core -/

/-- The validation trigger policy of the solid core. -/
inductive ValidationEvent where
  | input
  | blur
  | submit
deriving Repr, DecidableEq

/-- The status of the solid createForm store.  This generation does have
a failed status. -/
inductive SolidStatus where
  | editing
  | submitting
  | validating
  | failed
deriving Repr, DecidableEq

/-- A field registered in the solid createForm store: its name together
with the validations configured for that name. -/
structure SolidField where
  name : String
  validations : List SolidValidation

/-- The store backing a solid createForm: values, status, the dirty flag,
the registered fields, the per field validation errors and the last
submit error. -/
structure SolidFormState where
  values : List (String × JSValue)
  status : SolidStatus
  dirty : Bool
  fields : List SolidField
  validationErrors : List (String × List String)
  submitError : Option String

/-- The validate closure produced by createField in src/src/field.ts: it
runs every configured validation on the current value, collects the
resolved message of every failing one (filter Boolean also drops empty
message strings), stores the collected errors through the channel, and
resolves to the double negation of the error count, that is to true
exactly when errors exist. -/
def createFieldValidate (name : String) (validations : List SolidValidation)
    (value : JSValue) : List String × Bool :=
  let results := validations.map fun m =>
    if m.validate value then none else some (m.message.resolve name)
  let errors := (results.filterMap id).filter fun s => !(s == "")
  (errors, !errors.isEmpty)

/-- Validation of one registered field inside the createForm store: the
field reads its value from the store (a missing key reads as undefined)
and writes the collected errors back under its name, valid or not. -/
def solidValidateField (st : SolidFormState) (fld : SolidField) :
    SolidFormState × Bool :=
  let value := (lookupEntry st.values fld.name).getD .undef
  let (errors, ret) := createFieldValidate fld.name fld.validations value
  ({ st with validationErrors := setEntry st.validationErrors fld.name errors },
   ret)

/-- The isValid accessor of the solid createForm: no stored error list is
non empty. -/
def solidIsValid (st : SolidFormState) : Bool :=
  st.validationErrors.all fun p => p.2.isEmpty

/-- The validate function of the solid createForm: every registered field
is validated sequentially in registration order, the boolean each field
validate resolves to being discarded; the function then returns the
isValid accessor, the aggregate validity. -/
def solidValidateAll (st : SolidFormState) : SolidFormState × Bool :=
  let st1 := st.fields.foldl (fun acc fld => (solidValidateField acc fld).1) st
  (st1, solidIsValid st1)

/-- The options of the solid createForm relevant to submission. -/
structure SolidOpts where
  validationEvent : ValidationEvent
  submitOnError : Bool

/-- The submit function of the solid createForm: clear the previous
submit error, validate first when the trigger policy is submit, abort
(before any status change) when invalid unless submitOnError is enabled;
otherwise pass transiently through the submitting status and run the
caller supplied callback on the value snapshot: on success the status
returns to editing and the dirty flag is cleared, on failure the status
becomes failed and the thrown value, normalised by toError, is recorded
as submitError.  The callback runs inside try/catch, so submit itself
never rejects, which the embedding reflects by being a total function of
the callback outcome. -/
def createFormSubmit (opts : SolidOpts) (st : SolidFormState)
    (outcome : Except Form.Thrown Unit) : SolidFormState :=
  let st1 : SolidFormState := { st with submitError := none }
  let st2 := if opts.validationEvent == .submit then (solidValidateAll st1).1
    else st1
  if !opts.submitOnError && !solidIsValid st2 then st2
  else
    match outcome with
    | .ok _ => { st2 with status := .editing, dirty := false }
    | .error e =>
      { st2 with status := .failed,
                 submitError := some (Form.toErrorMsg e) }

/-! ## packages/model emitter (part_018 of the unnamed sources)

Handlers are identified by the reference pushed into the listener array;
the model uses natural numbers for these references.  The off method
never mutates the stored array: it rebinds the event key to a freshly
filtered copy.  The for loop of emit iterates the array object read once
when the loop starts, so when handlers only unsubscribe during the emit,
the loop runs over exactly the handlers registered at emit time, in
order.  emitLoop threads the mutable listener binding while walking that
snapshot and logs every handler invocation. -/

namespace Emitter

/-- The off method for one event key: the stored listener list is
replaced by a copy with every occurrence of the handler filtered out. -/
def off (listeners : List Nat) (h : Nat) : List Nat :=
  listeners.filter fun l => l != h

/-- The off calls a handler performs during its invocation, applied in
order to the current listener binding. -/
def applyOffs (listeners : List Nat) (offs : List Nat) : List Nat :=
  offs.foldl off listeners

/-- The emit loop: walk the snapshot of the listener array taken when the
loop started, invoke each handler (whose body may unsubscribe handlers of
the same event, described by the behavior function), and record the
invocation order. -/
def emitLoop (behavior : Nat → List Nat) :
    List Nat → List Nat → List Nat × List Nat
  | [], st => (st, [])
  | h :: rest, st =>
    let st1 := applyOffs st (behavior h)
    let (stF, invoked) := emitLoop behavior rest st1
    (stF, h :: invoked)

/-- The emit method for one event key, for handlers whose bodies only
unsubscribe: the iterated array is the listener binding read once at the
start. -/
def emit (behavior : Nat → List Nat) (listeners : List Nat) :
    List Nat × List Nat :=
  emitLoop behavior listeners listeners

end Emitter

/-! ## Fixtures and event predicates used by the theorems -/

/-- Discriminator for the form wide change event. -/
def FormEvent.isChange : FormEvent → Bool
  | .change => true
  | _ => false

/-- Discriminator for validation events at form level. -/
def FormEvent.isValidate : FormEvent → Bool
  | .validateField _ _ => true
  | .validateForm _ _ => true
  | _ => false

/-- A required field of the class based core holding no value. -/
def reqField : FieldState :=
  { value := .undef, defaultValue := .undef, errors := [],
    required := true, validations := [] }

/-- A field currently holding a stale Required error. -/
def staleField : FieldState :=
  { value := .undef, defaultValue := .undef, errors := ["Required"],
    required := true, validations := [] }

/-- A form with two required, currently empty fields. -/
def twoReqForm : Form :=
  { fields := [("username", reqField), ("email", reqField)],
    validationErrors := [], submitError := none, status := .idle }

/-- The corresponding solid createForm store: two registered fields
carrying the required validation and no stored values. -/
def twoReqSolid : SolidFormState :=
  { values := [], status := .editing, dirty := false,
    fields := [⟨"username", [required]⟩, ⟨"email", [required]⟩],
    validationErrors := [], submitError := none }

/-- A form whose single field is already undefined. -/
def undefForm : Form := Form.ofDefaults [("a", .undef)]

/-- A form whose single field currently differs from its default. -/
def dirtyForm : Form :=
  { fields := [("a", { value := .str "x", defaultValue := .str "d",
                       errors := [], required := false, validations := [] })],
    validationErrors := [], submitError := none, status := .idle }

/-- A solid createForm store with one valid stored field. -/
def solidSt0 : SolidFormState :=
  { values := [("a", .str "x")], status := .editing, dirty := true,
    fields := [⟨"a", []⟩], validationErrors := [], submitError := none }

/-! ## C7: the required built-in -/

/-- C7 counterexample: the claim says the required validation fails for
every 0-length collection, but the empty array is truthy in JavaScript,
so the required predicate, the double negation of the value, passes
it. -/
theorem required_passes_empty_array_cex :
    required.validate (JSValue.arr []) = true := rfl

/-- C7 amended: the required validation fails exactly for falsy values,
undefined, null, the empty string, the number 0 and false, and passes
every truthy value regardless of its length, so arrays, blobs and plain
objects pass even when empty. -/
theorem required_validate_truth_table :
    required.validate .undef = false ∧
    required.validate .jsNull = false ∧
    (∀ s : String, required.validate (.str s) = !(s == "")) ∧
    (∀ n : Int, required.validate (.num n) = !(n == 0)) ∧
    (∀ b : Bool, required.validate (.bool b) = b) ∧
    (∀ xs : List JSValue, required.validate (.arr xs) = true) ∧
    (∀ sz : Nat, required.validate (.blob sz) = true) ∧
    (∀ fs : List (String × JSValue), required.validate (.obj fs) = true) :=
  ⟨rfl, rfl, fun _ => rfl, fun _ => rfl, fun _ => rfl,
   fun _ => rfl, fun _ => rfl, fun _ => rfl⟩

/-! ## C8: the length and magnitude measure of min and max -/

/-- C8 counterexample: the claim merges the two measures into one.  In
packages/form, a blob does not measure its byte size: getLenth raises a
TypeError for it.  In src/src, an unmeasured type such as a boolean does
not raise a TypeError: getNumber measures it 0 through Object.keys, so
min there reports an ordinary validation failure. -/
theorem length_measure_cex :
    getLenth (.blob 5) = .error (.typeError "Invalid value") ∧
    getNumber (.bool true) = 0 ∧
    (minValidation 1).validate (.bool true) = false :=
  ⟨rfl, rfl, rfl⟩

/-- C8 amended: both measures agree on strings (character length),
numbers (the numeric value) and arrays (element count).  The class based
getLenth of packages/form throws a TypeError for every other type,
blobs and plain objects included.  The solid getNumber of src/src
additionally measures blobs by byte size and everything else by its
Object.keys count, plain objects by key count and key-less primitives
such as booleans as 0, and never throws: the solid min and max built-ins
turn the measure into an ordinary pass or fail verdict for every
value. -/
theorem length_measure_characterisation :
    (∀ s : String, getLenth (.str s) = .ok s.length) ∧
    (∀ n : Int, getLenth (.num n) = .ok n) ∧
    (∀ xs : List JSValue, getLenth (.arr xs) = .ok xs.length) ∧
    (∀ sz : Nat, getLenth (.blob sz) = .error (.typeError "Invalid value")) ∧
    (∀ fs : List (String × JSValue),
      getLenth (.obj fs) = .error (.typeError "Invalid value")) ∧
    (∀ b : Bool, getLenth (.bool b) = .error (.typeError "Invalid value")) ∧
    getLenth .undef = .error (.typeError "Invalid value") ∧
    (∀ s : String, getNumber (.str s) = s.length) ∧
    (∀ n : Int, getNumber (.num n) = n) ∧
    (∀ xs : List JSValue, getNumber (.arr xs) = xs.length) ∧
    (∀ sz : Nat, getNumber (.blob sz) = sz) ∧
    (∀ fs : List (String × JSValue), getNumber (.obj fs) = fs.length) ∧
    (∀ b : Bool, getNumber (.bool b) = 0) ∧
    (∀ bound : Int, ∀ sz : Nat,
      (minValidation bound).validate (.blob sz) = decide ((sz : Int) ≥ bound)) ∧
    (∀ bound : Int, ∀ b : Bool,
      (minValidation bound).validate (.bool b) = decide ((0 : Int) ≥ bound)) ∧
    (∀ bound : Int, ∀ v : JSValue,
      (maxValidation bound).validate v = decide (getNumber v ≤ bound)) :=
  ⟨fun _ => rfl, fun _ => rfl, fun _ => rfl, fun _ => rfl, fun _ => rfl,
   fun _ => rfl, rfl, fun _ => rfl, fun _ => rfl, fun _ => rfl, fun _ => rfl,
   fun _ => rfl, fun _ => rfl, fun _ _ => rfl, fun _ _ => rfl, fun _ _ => rfl⟩

/-! ## C2: the boolean Field.validate resolves to -/

/-- C2: the validate closure produced by createField in src/src/field.ts
resolves to the double negation of the error count, so it resolves to
true exactly when the field has errors: on a required field holding
undefined it collects one error and still resolves true.  The class based
Field.validate of packages/form returns the negation of the error count
as the claim and the spec state, resolving false on the same input. -/
theorem createFieldValidate_resolves_inverted :
    createFieldValidate "username" [required] .undef
      = (["username is required"], true) ∧
    (FieldV1.validate reqField true).map (fun s => (s.valid, s.field.errors))
      = .ok (false, ["Required"]) :=
  ⟨rfl, rfl⟩

/-! ## C9: unsubscription during emit -/

/-- Every handler in the snapshot taken at the start of the emit loop is
invoked exactly once, in registration order, whatever unsubscriptions the
handler bodies perform. -/
theorem emitLoop_invokes_snapshot (behavior : Nat → List Nat) :
    ∀ (snapshot st : List Nat),
      (Emitter.emitLoop behavior snapshot st).2 = snapshot := by
  intro snapshot
  induction snapshot with
  | nil => intro st; rfl
  | cons h rest ih =>
    intro st
    simp [Emitter.emitLoop, ih]

/-- C9: emit on a listener list invokes exactly the handlers registered
when the emit started, in order, with no handler skipped or duplicated
and no exception, even when handlers unsubscribe themselves or other
handlers of the same event: off rebinds the listener key to a filtered
copy and never mutates the array the loop iterates. -/
theorem emit_invokes_all_registered_handlers
    (behavior : Nat → List Nat) (listeners : List Nat) :
    (Emitter.emit behavior listeners).2 = listeners :=
  emitLoop_invokes_snapshot behavior listeners listeners

/-! ## C10: loose emptiness in the class based Field.validate -/

/-- C10: the emptiness test of Field.validate in packages/form uses loose
equality against undefined and the empty string, and both the number 0
and the boolean false compare loosely equal to the empty string: for a
field holding such a value no configured validation runs (the run
resolves even when every validation would throw), the promise resolves to
true when the field is not required, and a single Required error is
appended when it is. -/
theorem fieldValidate_treats_zero_and_false_as_empty
    (f : FieldState) (trigger : Bool)
    (h : f.value = .num 0 ∨ f.value = .bool false) :
    (FieldV1.validate f trigger).map (fun s => (s.valid, s.field.errors))
      = .ok (!f.required, if f.required then ["Required"] else []) := by
  have hv : (JSValue.looseEqUndef f.value || JSValue.looseEqEmptyStr f.value)
      = true := by
    rcases h with h | h <;> rw [h] <;> rfl
  cases hr : f.required <;>
    simp [FieldV1.validate, hv, hr, Except.map, pure, Except.pure,
      bind, Except.bind]

/-- A required field holding the number 0 whose single configured
validation would throw if it ever ran. -/
def zeroReqField : FieldState :=
  { value := .num 0, defaultValue := .undef, errors := [], required := true,
    validations := [fun _ => .error (.validation "never runs")] }

/-- Witness for C10 at a concrete input: the throwing validation of the
fixture is never consulted and the required error is appended. -/
theorem fieldValidate_treats_zero_and_false_as_empty_witness :
    (FieldV1.validate zeroReqField true).map
        (fun s => (s.valid, s.field.errors))
      = .ok (false, ["Required"]) := by
  simpa using
    fieldValidate_treats_zero_and_false_as_empty zeroReqField true (Or.inl rfl)

/-! ## C4: stale errors across value changes -/

/-- C4 counterexample: the set method of the earlier Field variant with
the trigger flag false changes the stored value but leaves the stale
error in place, so not every value changing entry point clears the
errors. -/
theorem set_without_trigger_keeps_stale_errors_cex :
    (FieldV2.set staleField (.str "x") false).field.value = .str "x" ∧
    staleField.value = .undef ∧
    (FieldV2.set staleField (.str "x") false).field.errors = ["Required"] :=
  ⟨rfl, rfl, rfl⟩

/-- C4 amended: whenever a value mutating entry point whose trigger flag
is true, that is the value setter, setValue, set with its default
trigger, or reset, actually changes the field value under the configured
equality, the errors list is empty immediately afterwards, before any
validate call; set with the trigger flag false is the one exception. -/
theorem value_change_clears_errors (f : FieldState) (m : Mutation)
    (htrig : m.trigger = true)
    (hchange : JSValue.beq f.value (applyMutation f m).field.value = false) :
    (applyMutation f m).field.errors = [] := by
  cases m with
  | valueSetter v =>
    by_cases hb : JSValue.beq f.value v = true
    · simp [applyMutation, FieldV1.valueSetter, FieldV1.setValue, hb]
        at hchange
    · simp [applyMutation, FieldV1.valueSetter, FieldV1.setValue,
        eq_false_of_ne_true hb]
  | setValue v =>
    by_cases hb : JSValue.beq f.value v = true
    · simp [applyMutation, FieldV1.setValue, hb] at hchange
    · simp [applyMutation, FieldV1.setValue, eq_false_of_ne_true hb]
  | set v t =>
    simp only [Mutation.trigger] at htrig
    subst htrig
    by_cases hb : JSValue.beq f.value v = true
    · simp [applyMutation, FieldV2.set, hb] at hchange
    · simp [applyMutation, FieldV2.set, eq_false_of_ne_true hb]
  | reset =>
    simp [applyMutation, FieldV1.reset]

/-- Witness for C4 at a concrete input: setValue with a genuinely new
value clears the stale error of the fixture. -/
theorem value_change_clears_errors_witness :
    (applyMutation staleField (.setValue (.str "a"))).field.errors = [] :=
  value_change_clears_errors staleField (.setValue (.str "a")) rfl rfl

/-! ## C5: submit failure capture -/

/-- C5 counterexample: Form.submit of packages/form restores the idle
status in its finally block even when the callback throws, and its status
type has no failed member at all; on success the derived dirtiness is
untouched. -/
theorem submit_restores_idle_cex :
    (Form.submit dirtyForm (.error (.errObj "Submit failed"))).1.status
      = FormStatus.idle ∧
    (Form.submit dirtyForm (.ok ())).1.status = FormStatus.idle ∧
    Form.isDirty (Form.submit dirtyForm (.ok ())).1 = true :=
  ⟨rfl, rfl, rfl⟩

/-- C5 amended: both submit implementations capture a callback failure,
normalise it to an Error and record it as submitError, and neither lets
the rejection escape (both embeddings are total functions of the callback
outcome).  The solid createForm behaves exactly as the claim states,
failed status on failure, editing status and a cleared dirty flag on
success; the class based Form of packages/form instead always restores
the idle status, having no failed status, and leaves the derived
dirtiness untouched. -/
theorem submit_capture_spec (f : Form) (opts : SolidOpts)
    (st : SolidFormState) (e : Form.Thrown)
    (h : opts.submitOnError = true) :
    (Form.submit f (.error e)).1.submitError = some (Form.toErrorMsg e) ∧
    (Form.submit f (.error e)).1.status = .idle ∧
    (Form.submit f (.ok ())).1.status = .idle ∧
    (Form.submit f (.ok ())).1.submitError = none ∧
    (createFormSubmit opts st (.error e)).status = .failed ∧
    (createFormSubmit opts st (.error e)).submitError
      = some (Form.toErrorMsg e) ∧
    (createFormSubmit opts st (.ok ())).status = .editing ∧
    (createFormSubmit opts st (.ok ())).dirty = false := by
  refine ⟨rfl, rfl, rfl, rfl, ?_, ?_, ?_, ?_⟩ <;>
    simp [createFormSubmit, h]

/-- Witness for C5 at a concrete input: a throwing callback leaves the
solid createForm store in the failed status. -/
theorem submit_capture_spec_witness :
    (createFormSubmit ⟨ValidationEvent.input, true⟩ solidSt0
        (.error (.errObj "boom"))).status = SolidStatus.failed :=
  (submit_capture_spec dirtyForm ⟨ValidationEvent.input, true⟩ solidSt0
    (.errObj "boom") rfl).2.2.2.2.1

/-! ## C1: Form.validate over every field -/

/-- C1: on a form with two required, currently empty fields, the class
based Form.validate validates both fields with no short circuit, records
a Required entry for each in validationErrors and ends with the aggregate
validity false, as the event log shows; the solid createForm validate
does the same and returns false.  The class based Form.validate, however,
has no return statement, so its promise resolves to undefined rather
than to the aggregate validity, which is why the embedding produces only
the state and the events. -/
theorem form_validate_two_required :
    (Form.validate twoReqForm).map
        (fun r => (r.1.validationErrors, Form.isValid r.1, r.1.status))
      = .ok ([("username", ["Required"]), ("email", ["Required"])],
             false, FormStatus.idle) ∧
    (Form.validate twoReqForm).map (fun r => r.2)
      = .ok [FormEvent.statusChange .idle .validating,
             FormEvent.validateField "username" ["Required"],
             FormEvent.validateField "email" ["Required"],
             FormEvent.validateForm false
               [("username", ["Required"]), ("email", ["Required"])],
             FormEvent.statusChange .validating .idle] ∧
    (solidValidateAll twoReqSolid).2 = false ∧
    (solidValidateAll twoReqSolid).1.validationErrors
      = [("username", ["username is required"]),
         ("email", ["email is required"])] :=
  ⟨rfl, rfl, rfl, rfl⟩

/-! ## C3: Form.clear -/

/-- Discriminator for re-broadcast per field change events. -/
def FormEvent.isFieldChange : FormEvent → Bool
  | .changeField _ _ _ => true
  | _ => false

/-- The set method always stores the new value, whatever the branch. -/
theorem set_value_eq (f : FieldState) (v : JSValue) (t : Bool) :
    (FieldV2.set f v t).field.value = v := by
  simp only [FieldV2.set]
  split <;> rfl

/-- With the trigger flag set, set reports a change exactly when the new
value differs under the configured equality. -/
theorem set_changed_eq (f : FieldState) (v : JSValue) :
    (FieldV2.set f v true).changed = !JSValue.beq f.value v := by
  by_cases hb : JSValue.beq f.value v = true <;>
    simp [FieldV2.set, hb]

/-- During clear the status is clearing, so the re-broadcast listener
turns the events of one set call into exactly one per field change event
when the value changed and nothing otherwise; in particular no form wide
change event and no validate event comes out of the per field work. -/
theorem set_clearing_events (n : String) (f : FieldState) (v : JSValue) :
    ((FieldV2.set f v true).events.map (Form.changeListener .clearing n)).flatten
      = if !JSValue.beq f.value v then [FormEvent.changeField n f.value v]
        else [] := by
  by_cases hb : JSValue.beq f.value v = true <;>
    simp [FieldV2.set, hb, Form.changeListener]

/-- The clear loop: the resulting fields are the old ones with the value
set to undefined, the change flag aggregates whether any value actually
changed, and the emitted events are per field change events only. -/
theorem clearFields_spec (fs : List (String × FieldState)) :
    (Form.clearFields fs).1
      = fs.map (fun p => (p.1, (FieldV2.set p.2 .undef true).field)) ∧
    (Form.clearFields fs).2.1
      = fs.any (fun p => !JSValue.beq p.2.value .undef) ∧
    (Form.clearFields fs).2.2.all FormEvent.isFieldChange = true := by
  induction fs with
  | nil => exact ⟨rfl, rfl, rfl⟩
  | cons p rest ih =>
    obtain ⟨ih1, ih2, ih3⟩ := ih
    refine ⟨?_, ?_, ?_⟩
    · simp [Form.clearFields, ih1]
    · simp [Form.clearFields, ih2, set_changed_eq]
    · have hset := set_clearing_events p.1 p.2 JSValue.undef
      by_cases hb : JSValue.beq p.2.value JSValue.undef = true
      · simp [Form.clearFields, hset, hb, ih3]
      · simp [Form.clearFields, hset, hb, ih3, FormEvent.isFieldChange]

/-- Events that are all per field change events contain no form wide
change and no validate event. -/
theorem fieldChange_only_filters (evs : List FormEvent)
    (h : evs.all FormEvent.isFieldChange = true) :
    evs.filter FormEvent.isChange = [] ∧
    evs.filter FormEvent.isValidate = [] := by
  induction evs with
  | nil => exact ⟨rfl, rfl⟩
  | cons e rest ih =>
    simp only [List.all_cons, Bool.and_eq_true] at h
    obtain ⟨he, hrest⟩ := h
    obtain ⟨ih1, ih2⟩ := ih hrest
    cases e <;>
      simp [FormEvent.isFieldChange, List.filter, FormEvent.isChange,
        FormEvent.isValidate, ih1, ih2] at he ⊢

/-- The full event log of one clear call: the entry into the clearing
status, the per field change re-broadcasts, the single form wide change
event guarded by whether anything changed, and the return to idle. -/
theorem clear_events (f : Form) :
    (Form.clear f).2
      = (if f.status == FormStatus.clearing then []
         else [FormEvent.statusChange f.status .clearing])
        ++ (Form.clearFields f.fields).2.2
        ++ (if (Form.clearFields f.fields).2.1 then [FormEvent.change]
            else [])
        ++ [FormEvent.statusChange .clearing .idle] := by
  simp [Form.clear, Form.setStatus]

/-- C3 counterexample: on a form whose single field is already
undefined, clear emits no form wide change event at all, though the
claim promises a single change event for every clear. -/
theorem clear_emits_no_change_when_nothing_changed_cex :
    (Form.clear undefForm).2.filter FormEvent.isChange = [] ∧
    ((Form.clear undefForm).1.fields.all
      fun p => JSValue.beq p.2.value .undef) = true :=
  ⟨rfl, rfl⟩

/-- C3 amended: clear sets every created field value to undefined, runs
no validation (the event log holds no validate event), clears the
aggregate validationErrors and submitError, restores the idle status, and
emits exactly one form wide change event when some field value actually
changed and none otherwise. -/
theorem clear_spec (f : Form) :
    ((Form.clear f).1.fields.all
      fun p => JSValue.beq p.2.value .undef) = true ∧
    (Form.clear f).1.validationErrors = [] ∧
    (Form.clear f).1.submitError = none ∧
    (Form.clear f).1.status = .idle ∧
    ((Form.clear f).2.filter FormEvent.isChange).length
      = (if f.fields.any (fun p => !JSValue.beq p.2.value .undef) then 1
         else 0) ∧
    (Form.clear f).2.filter FormEvent.isValidate = [] := by
  obtain ⟨h1, h2, h3⟩ := clearFields_spec f.fields
  obtain ⟨hc, hv⟩ := fieldChange_only_filters _ h3
  have hA : ∀ p : FormEvent → Bool, p (FormEvent.statusChange f.status .clearing) = false →
      (if f.status == FormStatus.clearing then ([] : List FormEvent)
       else [FormEvent.statusChange f.status .clearing]).filter p = [] := by
    intro p hp
    split <;> simp [List.filter, hp]
  refine ⟨?_, ?_, ?_, ?_, ?_, ?_⟩
  · simp only [Form.clear, Form.setStatus]
    rw [h1]
    simp [List.all_eq_true, set_value_eq, JSValue.beq_refl]
  · simp [Form.clear, Form.setStatus]
  · simp [Form.clear, Form.setStatus]
  · simp [Form.clear, Form.setStatus]
  · rw [clear_events f, h2]
    simp only [List.filter_append, List.length_append,
      hc, hA FormEvent.isChange rfl]
    split <;> simp [List.filter, FormEvent.isChange]
  · rw [clear_events f]
    simp only [List.filter_append, hv, hA FormEvent.isValidate rfl]
    split <;> simp [List.filter, FormEvent.isValidate]

/-! ## C6: the reset round trip -/

/-- setValue never touches the default value. -/
theorem setValue_defaultValue (f : FieldState) (v : JSValue) :
    (FieldV1.setValue f v).field.defaultValue = f.defaultValue := by
  simp only [FieldV1.setValue]
  split <;> rfl

/-- reset stores the default value back and leaves no errors, whether or
not the value actually changed. -/
theorem reset_field_eq (f : FieldState) :
    (FieldV1.reset f).field
      = { f with value := f.defaultValue, errors := [] } := by
  simp only [FieldV1.reset, FieldV1.setValue]
  split <;> rfl

/-- The reset loop without new defaults maps every field to itself with
the default value restored and the errors dropped. -/
theorem resetFields_none (fs : List (String × FieldState)) :
    (Form.resetFields none fs).1
      = fs.map fun p =>
          (p.1, { p.2 with value := p.2.defaultValue, errors := [] }) := by
  induction fs with
  | nil => rfl
  | cons p rest ih => simp [Form.resetFields, reset_field_eq, ih]

/-- The fields of a reset form are exactly its reset fields. -/
theorem reset_form_fields (f : Form) (d : Option (List (String × JSValue))) :
    (Form.reset f d).1.fields = (Form.resetFields d f.fields).1 := by
  simp [Form.reset, Form.setStatus]

/-- Mapping any field transformation that preserves names and default
values commutes with reading the default snapshot. -/
theorem map_defaults_invariant
    (g : (String × FieldState) → (String × FieldState))
    (hg : ∀ p, (g p).1 = p.1 ∧ (g p).2.defaultValue = p.2.defaultValue)
    (fs : List (String × FieldState)) :
    ((fs.map g).map fun p => (p.1, p.2.defaultValue))
      = fs.map fun p => (p.1, p.2.defaultValue) := by
  induction fs with
  | nil => rfl
  | cons p rest ih =>
    obtain ⟨h1, h2⟩ := hg p
    simp only [List.map_cons, ih, h1, h2]

/-- The name and default value of every field survive one setFieldValue
call. -/
theorem setFieldValue_defaults (n : String) (v : JSValue) (f : Form) :
    (Form.setFieldValue f n v).fields.map (fun p => (p.1, p.2.defaultValue))
      = f.fields.map fun p => (p.1, p.2.defaultValue) := by
  apply map_defaults_invariant
  intro p
  by_cases h : (p.1 == n) = true <;> simp [h, setValue_defaultValue]

/-- The name and default value of every field survive any sequence of
field value mutations. -/
theorem applyMutations_defaults (muts : List (String × JSValue)) :
    ∀ f : Form,
      (Form.applyMutations f muts).fields.map (fun p => (p.1, p.2.defaultValue))
        = f.fields.map fun p => (p.1, p.2.defaultValue) := by
  induction muts with
  | nil => intro f; rfl
  | cons m rest ih =>
    intro f
    have hstep :
        Form.applyMutations f (m :: rest)
          = Form.applyMutations (Form.setFieldValue f m.1 m.2) rest := rfl
    rw [hstep, ih (Form.setFieldValue f m.1 m.2),
      setFieldValue_defaults m.1 m.2 f]

/-- A form built from default values records exactly those defaults. -/
theorem ofDefaults_defaults (ds : List (String × JSValue)) :
    (Form.ofDefaults ds).fields.map (fun p => (p.1, p.2.defaultValue)) = ds := by
  induction ds with
  | nil => rfl
  | cons d rest ih => simp [Form.ofDefaults] at ih ⊢; exact ih

/-- C6: for a form constructed from default values, after any sequence
of value mutations of its created fields, reset with no arguments makes
toJSON equal exactly the original default snapshot and makes isDirty
false. -/
theorem reset_round_trip (defaults muts : List (String × JSValue)) :
    Form.toJSON
        (Form.reset (Form.applyMutations (Form.ofDefaults defaults) muts)
          none).1 = defaults ∧
    Form.isDirty
        (Form.reset (Form.applyMutations (Form.ofDefaults defaults) muts)
          none).1 = false := by
  have hd :
      (Form.applyMutations (Form.ofDefaults defaults) muts).fields.map
          (fun p => (p.1, p.2.defaultValue)) = defaults := by
    rw [applyMutations_defaults, ofDefaults_defaults]
  constructor
  · rw [Form.toJSON, reset_form_fields, resetFields_none, List.map_map]
    simpa using hd
  · rw [Form.isDirty, reset_form_fields, resetFields_none, List.any_map]
    simp [Function.comp, JSValue.beq_refl]
